import Mathlib

/-!
# Verification of the nmap multi-scan wrapper (`nmap_auto_banner.py`)

A shallow embedding of the single Python source file of the repository:
a CLI wrapper that resolves a target, preflight-checks the external `nmap`
binary, selects a subset of a fixed registry of scan profiles (all of them,
or interactively by 1-based comma-separated indices), and sequentially
invokes the external tool once per selected profile, naming each run's
output base path `results/<target>/<label>_<timestamp>`.

External effects (stdin prompts, the subprocess exit codes, the wall clock)
are modelled as explicit inputs in a `World` record; the program becomes a
pure function `main : World → RunResult` recording the exit status, the
sequence of attempted scan invocations, and the per-invocation report.
-/

set_option autoImplicit false

namespace NmapAuto

/-! ## Python string primitives

The source manipulates its inputs with `str.strip`, `str.lower`,
`str.split(",")` and `int(...)`.  These are embedded below over `List Char`
(Lean strings are lists of characters), restricted to the ASCII behaviour
the program's documented inputs (digits, labels, hostnames) exercise.
-/

/-- Characters removed by Python `str.strip()` (ASCII whitespace). -/
def pySpace (c : Char) : Bool :=
  c = ' ' || c = '\t' || c = '\n' || c = '\r' || c = '\x0b' || c = '\x0c'

/-- Python `s.strip()`: drop leading and trailing whitespace. -/
def pyStrip (s : String) : String :=
  ⟨((s.data.dropWhile pySpace).reverse.dropWhile pySpace).reverse⟩

/-- Python `s.lower()` (ASCII case folding). -/
def pyLower (s : String) : String :=
  ⟨s.data.map Char.toLower⟩

/-- Helper of `pySplit`: accumulate the current piece (reversed) while
scanning for the separator. -/
def pySplitAux (sep : Char) : List Char → List Char → List String
  | [], acc => [⟨acc.reverse⟩]
  | c :: cs, acc =>
    if c = sep then ⟨acc.reverse⟩ :: pySplitAux sep cs []
    else pySplitAux sep cs (c :: acc)

/-- Python `s.split(sep)` for a one-character separator: every occurrence of
the separator delimits a (possibly empty) piece; the empty string splits to
`[""]`. -/
def pySplit (sep : Char) (s : String) : List String :=
  pySplitAux sep s.data []

/-- Digit run of a Python decimal `int` literal after its first digit:
digits optionally separated by single underscores (`1_000`), with no
trailing or doubled underscore. -/
def pyDigitsRest : List Char → Bool
  | [] => true
  | '_' :: c :: cs => c.isDigit && pyDigitsRest cs
  | ['_'] => false
  | c :: cs => c.isDigit && pyDigitsRest cs

/-- A nonempty Python decimal digit run (first character must be a digit). -/
def pyDigits : List Char → Bool
  | [] => false
  | c :: cs => c.isDigit && pyDigitsRest cs

/-- Numeric value of a digit run, skipping grouping underscores. -/
def digitsToNat : List Char → Nat → Nat
  | [], acc => acc
  | c :: cs, acc =>
    if c = '_' then digitsToNat cs acc
    else digitsToNat cs (acc * 10 + (c.toNat - 48))

/-- Python `int(s)` on an already-stripped token: an optional sign followed
by an ASCII decimal digit run; `none` models the `ValueError` raised on any
other input.  (Non-ASCII digit alphabets accepted by CPython are outside the
program's documented input space and are not modelled.) -/
def pyInt (s : String) : Option Int :=
  match s.data with
  | '+' :: cs => if pyDigits cs then some (digitsToNat cs 0) else none
  | '-' :: cs => if pyDigits cs then some (-(digitsToNat cs 0 : Int)) else none
  | cs => if pyDigits cs then some (digitsToNat cs 0) else none

/-! ## The profile registry -/

/-- A scan profile: a label and a pre-joined nmap argument string.
Mirrors one entry of the `SCANS` list. -/
structure ScanProfile where
  label : String
  arguments : String
deriving DecidableEq, Repr

/-- The fixed profile registry `SCANS` of the source, in its order. -/
def SCANS : List ScanProfile := [
  ⟨"tcp_quick_top1000", "-sS -T4 --top-ports 1000 -Pn"⟩,
  ⟨"tcp_full_all_ports", "-sS -p- -T3 -Pn"⟩,
  ⟨"service_version", "-sV -sC -T4 -Pn"⟩,
  ⟨"udp_top100", "-sU --top-ports 100 -T3 -Pn"⟩,
  ⟨"os_detection", "-O -sV -T4 -Pn"⟩,
  ⟨"nse_vuln", "-sV --script vuln -T4 -Pn"⟩,
  ⟨"default_scripts", "-sC -T4 -Pn"⟩]

/-! ## Interactive profile selection -/

/-- The tokens Python iterates over in
`[int(x.strip()) for x in picks.split(",") if x.strip()]`:
comma-separated pieces, stripped, empty pieces discarded. -/
def pyTokens (picks : String) : List String :=
  ((pySplit ',' picks).map pyStrip).filter (fun t => t ≠ "")

/-- The list comprehension `[int(x.strip()) for x in ...]`: all tokens are
converted before any index is used, and a single unparsable token aborts the
whole comprehension with a `ValueError` (modelled as `none`). -/
def allInts : List String → Option (List Int)
  | [] => some []
  | t :: ts =>
    match pyInt t, allInts ts with
    | some v, some vs => some (v :: vs)
    | _, _ => none

/-- The selection loop: for each parsed index `i`, in input order, append
`SCANS[i-1]` when `1 <= i <= len(SCANS)`; out-of-range indices are skipped
silently.  A repeated in-range index appends its profile again. -/
def selectIdx (scans : List ScanProfile) (idxs : List Int) : List ScanProfile :=
  idxs.filterMap (fun i =>
    if 1 ≤ i ∧ i ≤ (scans.length : Int) then scans.get? (i - 1).toNat else none)

/-- `interactive_choose_scans()` of the source, with the registry it reads
from the global `SCANS` abstracted as a parameter (instantiated at `SCANS`
by `main`) and the prompt answer passed as `raw`.  The second component
records whether the `"[!] Invalid selection, defaulting to all scans."`
warning was printed. -/
def interactive_choose_scans (scans : List ScanProfile) (raw : String) :
    List ScanProfile × Bool :=
  let picks := pyLower (pyStrip raw)
  if picks = "all" ∨ picks = "" then (scans, false)
  else
    match allInts (pyTokens picks) with
    | none => (scans, true)
    | some idxs =>
      let selected := selectIdx scans idxs
      if selected = [] then (scans, false) else (selected, false)

/-! ## Timestamps and the per-profile runner -/

/-- The fields of `datetime.datetime.now()` that
`strftime("%Y%m%d_%H%M%S")` reads: the finest field is the second, so the
produced timestamp has second-level resolution by construction. -/
structure DateTime where
  year : Nat
  month : Nat
  day : Nat
  hour : Nat
  minute : Nat
  second : Nat
deriving DecidableEq, Repr

/-- Zero-pad a numeral to two digits (strftime `%m`, `%d`, `%H`, `%M`,
`%S`). -/
def pad2 (n : Nat) : String :=
  if n < 10 then "0" ++ toString n else toString n

/-- Zero-pad a numeral to four digits (strftime `%Y` on glibc). -/
def pad4 (n : Nat) : String :=
  if n < 10 then "000" ++ toString n
  else if n < 100 then "00" ++ toString n
  else if n < 1000 then "0" ++ toString n
  else toString n

/-- `datetime.datetime.now().strftime("%Y%m%d_%H%M%S")`. -/
def strftimeStamp (t : DateTime) : String :=
  pad4 t.year ++ pad2 t.month ++ pad2 t.day ++ "_" ++
    pad2 t.hour ++ pad2 t.minute ++ pad2 t.second

/-- What `run_scan` reports for one invocation: on exit status zero the
three output paths, otherwise the profile label and the exit code. -/
inductive ScanOutcome where
  | ok (paths : List String)
  | failed (label : String) (code : Int)
deriving DecidableEq, Repr

/-- The observable record of one `run_scan` call: the composed output base
path, the shell command line, and the reported outcome. -/
structure ScanRecord where
  outbase : String
  cmd : String
  outcome : ScanOutcome
deriving DecidableEq, Repr

/-- `run_scan(target, label, args, outdir)` of the source.  The wall-clock
reading and the exit status of the spawned process are passed in as `t` and
`code`; `outdir / f"{label}_{timestamp}"` joins with a `/` since labels
contain no path separator. -/
def run_scan (target label arguments outdir : String) (t : DateTime)
    (code : Int) : ScanRecord :=
  let timestamp := strftimeStamp t
  let outbase := outdir ++ "/" ++ label ++ "_" ++ timestamp
  let cmd := "nmap " ++ arguments ++ " -oA " ++ outbase ++ " " ++ target
  { outbase := outbase
    cmd := cmd
    outcome :=
      if code = 0 then
        .ok [outbase ++ ".nmap", outbase ++ ".xml", outbase ++ ".gnmap"]
      else .failed label code }

/-! ## Target, mode, and output-directory resolution -/

/-- Target resolution of `main`: with exactly one command-line argument
(`len(sys.argv) == 2`) the argument is used verbatim after stripping, with
no emptiness check; otherwise the interactive answer is stripped and an
empty result aborts (`none`).  `argv` holds the arguments after the program
name. -/
def resolveTarget (argv : List String) (stdinTarget : String) : Option String :=
  match argv with
  | [a] => some (pyStrip a)
  | _ =>
    let t := pyStrip stdinTarget
    if t = "" then none else some t

/-- `choose_mode()`: the stripped prompt answer, defaulting to `"1"` when
empty (`input(...).strip() or "1"`). -/
def choose_mode (raw : String) : String :=
  let c := pyStrip raw
  if c = "" then "1" else c

/-- `str(Path("results") / target)` under posix `pathlib` semantics for the
joins the program can perform: an empty part is dropped, an absolute part
(leading `/`) replaces the base, any other part is appended after a `/`.
(Collapsing of duplicate or trailing slashes inside the part is not
modelled; the theorems about non-absolute targets assume slash-free
targets, where this definition is exact.) -/
def outdirOf (target : String) : String :=
  if target = "" then "results"
  else if target.data.head? = some '/' then target
  else "results/" ++ target

/-- Insert a directory into the filesystem set if absent. -/
def addDir (fs : List (List String)) (d : List String) : List (List String) :=
  if d ∈ fs then fs else fs ++ [d]

/-- `Path.mkdir(parents, exist_ok)` over a filesystem modelled as the list
of existing directories, each a component path (`["results", target]` for
`results/<target>`).  An existing directory errors unless `exist_ok`;
`parents` creates every missing prefix of the path.  (The error raised by
`parents=False` on a missing parent is not modelled: the program only calls
`mkdir(parents=True, exist_ok=True)`.) -/
def mkdir (fs : List (List String)) (p : List String)
    (parents existOk : Bool) : Except Unit (List (List String)) :=
  if p ∈ fs then
    if existOk then .ok fs else .error ()
  else
    .ok (((if parents then List.range p.length else [p.length - 1]).map
      (fun k => p.take (k + 1))).foldl addDir fs)

/-! ## The whole program -/

/-- The external inputs of one run: the command-line arguments after the
program name, the three interactive prompt answers, whether the `nmap -V`
preflight invocation succeeds, the wall-clock reading before the `k`-th
scan invocation, and the exit status of the `k`-th scan invocation. -/
structure World where
  argv : List String
  stdinTarget : String
  stdinMode : String
  stdinPicks : String
  nmapOk : Bool
  clock : Nat → DateTime
  scanExit : Nat → Int

/-- The observable result of one run: the process exit status, whether the
nmap remediation message was printed, the profiles whose scan was attempted
(in invocation order), and the per-invocation records. -/
structure RunResult where
  exitCode : Nat
  nmapMsg : Bool
  invocations : List ScanProfile
  records : List ScanRecord

/-- The profile subset `main` executes: `interactive_choose_scans()` when
the chosen mode is exactly `"2"`, the full registry otherwise. -/
def scansToRun (w : World) : List ScanProfile :=
  if choose_mode w.stdinMode = "2" then
    (interactive_choose_scans SCANS w.stdinPicks).fst
  else SCANS

/-- The `for label, args in scans_to_run: run_scan(...)` loop, threading the
invocation counter `k` through the clock and exit-status oracles. -/
def runAll (target outdir : String) (clock : Nat → DateTime)
    (exits : Nat → Int) : Nat → List ScanProfile → List ScanRecord
  | _, [] => []
  | k, p :: ps =>
    run_scan target p.label p.arguments outdir (clock k) (exits k) ::
      runAll target outdir clock exits (k + 1) ps

/-- `main()` of the source: resolve the target (exiting 1 on an empty
interactive answer), preflight-check nmap (`check_nmap` exits 1 with a
remediation message on failure), then run every selected profile in order,
catching per-profile failures, and finish with exit status 0. -/
def main (w : World) : RunResult :=
  match resolveTarget w.argv w.stdinTarget with
  | none =>
    { exitCode := 1, nmapMsg := false, invocations := [], records := [] }
  | some target =>
    if w.nmapOk then
      let outdir := outdirOf target
      let scans := scansToRun w
      { exitCode := 0
        nmapMsg := false
        invocations := scans
        records := runAll target outdir w.clock w.scanExit 0 scans }
    else
      { exitCode := 1, nmapMsg := true, invocations := [], records := [] }

/-! ## Lemmas about the selection machinery -/

theorem allInts_eq_none_iff (l : List String) :
    allInts l = none ↔ ∃ t ∈ l, pyInt t = none := by
  induction l with
  | nil => simp [allInts]
  | cons t ts ih =>
    simp only [allInts]
    cases h1 : pyInt t with
    | none =>
      exact iff_of_true rfl ⟨t, List.mem_cons_self t ts, h1⟩
    | some v =>
      cases h2 : allInts ts with
      | none =>
        refine iff_of_true rfl ?_
        obtain ⟨u, hu, hnone⟩ := ih.mp h2
        exact ⟨u, List.mem_cons_of_mem t hu, hnone⟩
      | some vs =>
        refine iff_of_false (by simp) ?_
        rintro ⟨u, hu, hnone⟩
        rcases List.mem_cons.mp hu with rfl | hu
        · rw [h1] at hnone; cases hnone
        · have := ih.mpr ⟨u, hu, hnone⟩
          rw [h2] at this; cases this

theorem allInts_some_pyInt (l : List String) (vs : List Int)
    (h : allInts l = some vs) : ∀ t ∈ l, ∃ v, pyInt t = some v := by
  induction l generalizing vs with
  | nil => intro t ht; cases ht
  | cons u us ih =>
    intro t ht
    simp only [allInts] at h
    cases h1 : pyInt u with
    | none => rw [h1] at h; cases h
    | some v =>
      rw [h1] at h
      cases h2 : allInts us with
      | none => rw [h2] at h; cases h
      | some ws =>
        rcases List.mem_cons.mp ht with rfl | ht
        · exact ⟨v, h1⟩
        · exact ih ws h2 t ht

theorem allInts_some_mem (l : List String) (vs : List Int)
    (h : allInts l = some vs) : ∀ v ∈ vs, ∃ t ∈ l, pyInt t = some v := by
  induction l generalizing vs with
  | nil =>
    simp only [allInts, Option.some.injEq] at h
    subst h
    intro v hv; cases hv
  | cons u us ih =>
    intro v hv
    simp only [allInts] at h
    cases h1 : pyInt u with
    | none => rw [h1] at h; cases h
    | some w =>
      rw [h1] at h
      cases h2 : allInts us with
      | none => rw [h2] at h; cases h
      | some ws =>
        rw [h2] at h
        injection h with h
        subst h
        rcases List.mem_cons.mp hv with rfl | hv
        · exact ⟨u, List.mem_cons_self u us, h1⟩
        · obtain ⟨t, ht, hpt⟩ := ih ws h2 v hv
          exact ⟨t, List.mem_cons_of_mem u ht, hpt⟩

theorem ics_13_eq (scans : List ScanProfile) :
    interactive_choose_scans scans "1,3" =
      (if selectIdx scans [1, 3] = [] then (scans, false)
       else (selectIdx scans [1, 3], false)) := rfl

theorem selectIdx_cons3 (a b c : ScanProfile) (l : List ScanProfile) :
    selectIdx (a :: b :: c :: l) [1, 3] = [a, c] := by
  have h1 : (1 : Int) ≤ 1 ∧ (1 : Int) ≤ ((a :: b :: c :: l).length : Int) := by
    refine ⟨le_refl 1, ?_⟩
    simp only [List.length_cons]
    push_cast
    omega
  have h3 : (1 : Int) ≤ 3 ∧ (3 : Int) ≤ ((a :: b :: c :: l).length : Int) := by
    refine ⟨by norm_num, ?_⟩
    simp only [List.length_cons]
    push_cast
    omega
  simp only [selectIdx, List.filterMap_cons, List.filterMap_nil,
    if_pos h1, if_pos h3]
  norm_num
  simp [show Int.toNat 2 = 2 from rfl]

/-! ## Claim theorems: interactive selection and mode dispatch -/

/-- A run reaching the scan loop in interactive mode with selection input
`"1,1"`. -/
def wDup : World where
  argv := ["10.0.0.5"]
  stdinTarget := ""
  stdinMode := "2"
  stdinPicks := "1,1"
  nmapOk := true
  clock := fun _ => ⟨2025, 1, 1, 0, 0, 0⟩
  scanExit := fun _ => 0

/-- C2, counterexample: with interactive selection input `"1,1"` the first
registry profile is invoked twice in a single run, refuting "each profile
is attempted exactly once — no profile is invoked twice". -/
theorem C2_counterexample :
    (main wDup).invocations =
      [⟨"tcp_quick_top1000", "-sS -T4 --top-ports 1000 -Pn"⟩,
       ⟨"tcp_quick_top1000", "-sS -T4 --top-ports 1000 -Pn"⟩] ∧
    ¬ (main wDup).invocations.Nodup := by
  have h : (main wDup).invocations =
      [⟨"tcp_quick_top1000", "-sS -T4 --top-ports 1000 -Pn"⟩,
       ⟨"tcp_quick_top1000", "-sS -T4 --top-ports 1000 -Pn"⟩] := rfl
  refine ⟨h, ?_⟩
  rw [h]
  decide

/-- C2, amended: in a run that passes target resolution and the preflight
check and whose mode is not `"2"` (the "run all" mode), the executed
profiles are exactly the registry in registry order, each attempted exactly
once.  (In interactive mode the profiles run in the order of the entered
indices, and a repeated index repeats its profile.) -/
theorem C2_all_mode_once (w : World)
    (ht : resolveTarget w.argv w.stdinTarget ≠ none) (hn : w.nmapOk = true)
    (hm : choose_mode w.stdinMode ≠ "2") :
    (main w).invocations = SCANS ∧ (main w).invocations.Nodup := by
  cases h : resolveTarget w.argv w.stdinTarget with
  | none => exact absurd h ht
  | some target =>
    have hrun : (main w).invocations = SCANS := by
      simp only [main, h, hn, if_true, scansToRun, if_neg hm]
    exact ⟨hrun, hrun ▸ (by decide : SCANS.Nodup)⟩

/-- A run passing target resolution and the preflight with default mode. -/
def wAllMode : World where
  argv := ["10.0.0.5"]
  stdinTarget := ""
  stdinMode := ""
  stdinPicks := ""
  nmapOk := true
  clock := fun _ => ⟨2025, 1, 1, 0, 0, 0⟩
  scanExit := fun _ => 0

/-- Witness for `C2_all_mode_once` at a concrete run. -/
theorem C2_all_mode_once_witness :
    (main wAllMode).invocations = SCANS ∧ (main wAllMode).invocations.Nodup :=
  C2_all_mode_once wAllMode (by decide) rfl (by decide)

/-- C3, counterexample: the purely numeric out-of-range input `"99"` makes
the selection fall back to the full registry, but no warning is surfaced
(the warning is printed only on the `ValueError` path), refuting "a warning
message is surfaced to the user". -/
theorem C3_counterexample :
    (interactive_choose_scans SCANS "99").fst = SCANS ∧
    (interactive_choose_scans SCANS "99").snd = false := by
  decide

/-- C3, amended: for every interactive-selection input, other than the
`"all"`/empty shortcuts, all of whose tokens are out of range or
non-numeric, the returned subset equals the full registry; the warning is
surfaced exactly when some token is non-numeric (`int` raises), so a purely
numeric out-of-range input falls back silently. -/
theorem C3_fallback (scans : List ScanProfile) (raw : String)
    (hall : pyLower (pyStrip raw) ≠ "all") (hemp : pyLower (pyStrip raw) ≠ "")
    (hbad : ∀ t ∈ pyTokens (pyLower (pyStrip raw)), ∀ v : Int,
      pyInt t = some v → ¬(1 ≤ v ∧ v ≤ (scans.length : Int))) :
    (interactive_choose_scans scans raw).fst = scans ∧
    ((interactive_choose_scans scans raw).snd = true ↔
      ∃ t ∈ pyTokens (pyLower (pyStrip raw)), pyInt t = none) := by
  unfold interactive_choose_scans
  rw [if_neg (by push_neg; exact ⟨hall, hemp⟩)]
  cases h : allInts (pyTokens (pyLower (pyStrip raw))) with
  | none =>
    exact ⟨rfl, iff_of_true rfl ((allInts_eq_none_iff _).mp h)⟩
  | some idxs =>
    have hsel : selectIdx scans idxs = [] := by
      rw [selectIdx, List.filterMap_eq_nil_iff]
      intro i hi
      obtain ⟨t, ht, hpt⟩ := allInts_some_mem _ _ h i hi
      rw [if_neg (hbad t ht i hpt)]
    show (if selectIdx scans idxs = [] then (scans, false)
          else (selectIdx scans idxs, false)).1 = scans ∧
         ((if selectIdx scans idxs = [] then (scans, false)
           else (selectIdx scans idxs, false)).2 = true ↔
          ∃ t ∈ pyTokens (pyLower (pyStrip raw)), pyInt t = none)
    rw [hsel, if_pos rfl]
    refine ⟨rfl, iff_of_false (by simp) ?_⟩
    rintro ⟨t, ht, hnone⟩
    obtain ⟨v, hv⟩ := allInts_some_pyInt _ _ h t ht
    rw [hv] at hnone
    cases hnone

/-- Witness for `C3_fallback` at the spec's own example input `"99,abc"`:
full-registry fallback with the warning surfaced. -/
theorem C3_fallback_witness :
    (interactive_choose_scans SCANS "99,abc").fst = SCANS ∧
    (interactive_choose_scans SCANS "99,abc").snd = true := by
  have hbad : ∀ t ∈ pyTokens (pyLower (pyStrip "99,abc")), ∀ v : Int,
      pyInt t = some v → ¬(1 ≤ v ∧ v ≤ (SCANS.length : Int)) := by
    intro t ht v hv
    have e : pyTokens (pyLower (pyStrip "99,abc")) = ["99", "abc"] := by decide
    rw [e] at ht
    rcases List.mem_cons.mp ht with rfl | ht
    · have e99 : pyInt "99" = some 99 := by decide
      rw [e99] at hv
      injection hv with hv
      subst hv
      decide
    · rcases List.mem_cons.mp ht with rfl | ht
      · have eabc : pyInt "abc" = none := by decide
        rw [eabc] at hv; cases hv
      · cases ht
  have h := C3_fallback SCANS "99,abc" (by decide) (by decide) hbad
  exact ⟨h.1, h.2.mpr ⟨"abc", by decide, by decide⟩⟩

/-- C4: for the interactive-selection input `"1,3"` over a registry of at
least three profiles, the returned subset is exactly the profiles at
1-based registry positions 1 and 3, in that order. -/
theorem C4_selection_13 (scans : List ScanProfile) (h : 3 ≤ scans.length) :
    (interactive_choose_scans scans "1,3").fst =
      [scans.get ⟨0, by omega⟩, scans.get ⟨2, by omega⟩] := by
  match scans, h with
  | a :: b :: c :: l, _ =>
    rw [ics_13_eq, selectIdx_cons3, if_neg (by simp)]
    rfl

/-- Witness for `C4_selection_13` at the actual registry. -/
theorem C4_selection_13_witness :
    3 ≤ SCANS.length ∧
    (interactive_choose_scans SCANS "1,3").fst =
      [SCANS.get ⟨0, by decide⟩, SCANS.get ⟨2, by decide⟩] :=
  ⟨by decide, C4_selection_13 SCANS (by decide)⟩

/-- C5: for the interactive-selection inputs `""` and `"all"`, the returned
subset equals the full profile registry, in registry order (and no warning
is surfaced). -/
theorem C5_all_shortcut (scans : List ScanProfile) :
    interactive_choose_scans scans "" = (scans, false) ∧
    interactive_choose_scans scans "all" = (scans, false) :=
  ⟨rfl, rfl⟩

/-- C10: mode resolution maps exactly the inputs that strip to `"2"` to the
interactive mode; every other input — empty (defaulted to `"1"`), `"1"`, or
any invalid token — makes `main` run the full registry. -/
theorem C10_mode_dispatch (w : World) :
    (choose_mode w.stdinMode = "2" ↔ pyStrip w.stdinMode = "2") ∧
    (pyStrip w.stdinMode ≠ "2" → scansToRun w = SCANS) := by
  have hiff : choose_mode w.stdinMode = "2" ↔ pyStrip w.stdinMode = "2" := by
    unfold choose_mode
    by_cases hc : pyStrip w.stdinMode = ""
    · rw [if_pos hc, hc]
      decide
    · rw [if_neg hc]
  refine ⟨hiff, fun hne => ?_⟩
  unfold scansToRun
  rw [if_neg (fun hmode => hne (hiff.mp hmode))]

/-! ## Lemmas about the scan loop and directory creation -/

theorem runAll_length (target outdir : String) (clock : Nat → DateTime)
    (exits : Nat → Int) (ps : List ScanProfile) :
    ∀ k, (runAll target outdir clock exits k ps).length = ps.length := by
  induction ps with
  | nil => intro k; rfl
  | cons p ps ih => intro k; simp [runAll, ih]

theorem runAll_getElem? (target outdir : String) (clock : Nat → DateTime)
    (exits : Nat → Int) (ps : List ScanProfile) :
    ∀ k j, (runAll target outdir clock exits k ps)[j]? =
      (ps[j]?).map (fun p =>
        run_scan target p.label p.arguments outdir (clock (k + j))
          (exits (k + j))) := by
  induction ps with
  | nil => intro k j; simp [runAll]
  | cons p ps ih =>
    intro k j
    cases j with
    | zero => simp [runAll]
    | succ j =>
      simp only [runAll, List.getElem?_cons_succ]
      rw [ih (k + 1) j]
      have harith : k + 1 + j = k + (j + 1) := by omega
      rw [harith]

theorem addDir_mem (fs : List (List String)) (d x : List String)
    (hx : x ∈ fs) : x ∈ addDir fs d := by
  unfold addDir
  split
  · exact hx
  · exact List.mem_append_left _ hx

theorem addDir_self (fs : List (List String)) (d : List String) :
    d ∈ addDir fs d := by
  unfold addDir
  split
  · assumption
  · exact List.mem_append_right _ (List.mem_singleton.mpr rfl)

theorem foldl_addDir_preserve (ds : List (List String)) :
    ∀ fs x, x ∈ fs → x ∈ ds.foldl addDir fs := by
  induction ds with
  | nil => intro fs x hx; exact hx
  | cons d ds ih => intro fs x hx; exact ih _ _ (addDir_mem _ _ _ hx)

theorem foldl_addDir_mem (ds : List (List String)) :
    ∀ fs d, d ∈ ds → d ∈ ds.foldl addDir fs := by
  induction ds with
  | nil => intro fs d hd; cases hd
  | cons a ds ih =>
    intro fs d hd
    rcases List.mem_cons.mp hd with rfl | hd
    · exact foldl_addDir_preserve ds _ _ (addDir_self fs d)
    · exact ih _ _ hd

/-- In a run that reaches the scan loop, the attempted profiles are the
selected subset. -/
theorem main_invocations (w : World) (target : String)
    (h : resolveTarget w.argv w.stdinTarget = some target)
    (hok : w.nmapOk = true) : (main w).invocations = scansToRun w := by
  simp [main, h, hok]

/-- The attempted invocations do not depend on the scan exit codes. -/
theorem main_scanExit_invocations (w : World) (e : Nat → Int) :
    (main { w with scanExit := e }).invocations = (main w).invocations := by
  cases h : resolveTarget w.argv w.stdinTarget with
  | none =>
    have hh : resolveTarget ({ w with scanExit := e } : World).argv
        ({ w with scanExit := e } : World).stdinTarget = none := h
    have h1 : (main { w with scanExit := e }).invocations = [] := by
      simp [main, hh]
    have h2 : (main w).invocations = [] := by simp [main, h]
    rw [h1, h2]
  | some target =>
    have hh : resolveTarget ({ w with scanExit := e } : World).argv
        ({ w with scanExit := e } : World).stdinTarget = some target := h
    by_cases hok : w.nmapOk = true
    · have hh2 : ({ w with scanExit := e } : World).nmapOk = true := hok
      have h1 : (main { w with scanExit := e }).invocations =
          scansToRun { w with scanExit := e } :=
        main_invocations _ target hh hh2
      rw [h1, main_invocations w target h hok]
      rfl
    · have hok' : w.nmapOk = false := by
        cases hb : w.nmapOk
        · rfl
        · exact absurd hb hok
      have h1 : (main { w with scanExit := e }).invocations = [] := by
        simp [main, hh, hok']
      have h2 : (main w).invocations = [] := by simp [main, h, hok']
      rw [h1, h2]

/-! ## Claim theorems: exit status, preflight, runner, filesystem -/

/-- A run whose only command-line argument is the empty string. -/
def wEmptyArg : World where
  argv := [""]
  stdinTarget := ""
  stdinMode := ""
  stdinPicks := ""
  nmapOk := true
  clock := fun _ => ⟨2025, 1, 1, 0, 0, 0⟩
  scanExit := fun _ => 0

/-- C1, counterexample: with the empty string supplied as the command-line
argument, target resolution yields the empty string, yet the process exits
with status zero — the claimed "empty resolved target causes a non-zero
process exit" fails on the command-line path, which has no emptiness
check. -/
theorem C1_counterexample :
    resolveTarget wEmptyArg.argv wEmptyArg.stdinTarget = some "" ∧
    (main wEmptyArg).exitCode = 0 :=
  ⟨rfl, rfl⟩

/-- C1, amended: the exit status is non-zero iff the preflight fails or
target resolution aborts, and resolution aborts only on an empty
interactive answer: a single command-line argument always resolves (to its
stripped value, possibly empty). -/
theorem C1_exit_status (w : World) :
    ((main w).exitCode ≠ 0 ↔
      resolveTarget w.argv w.stdinTarget = none ∨ w.nmapOk = false) ∧
    (∀ a, w.argv = [a] →
      resolveTarget w.argv w.stdinTarget = some (pyStrip a)) := by
  constructor
  · cases h : resolveTarget w.argv w.stdinTarget with
    | none => simp [main, h]
    | some target =>
      cases hok : w.nmapOk with
      | false => simp [main, h, hok]
      | true => simp [main, h, hok]
  · intro a ha
    rw [ha]
    rfl

/-- A run with a well-formed command-line target. -/
def wArgTarget : World where
  argv := ["10.0.0.5"]
  stdinTarget := ""
  stdinMode := ""
  stdinPicks := ""
  nmapOk := true
  clock := fun _ => ⟨2025, 1, 1, 0, 0, 0⟩
  scanExit := fun _ => 0

/-- Witness for `C1_exit_status` at a concrete run. -/
theorem C1_exit_status_witness :
    resolveTarget wArgTarget.argv wArgTarget.stdinTarget =
      some (pyStrip "10.0.0.5") :=
  (C1_exit_status wArgTarget).2 "10.0.0.5" rfl

/-- C6: if the run reaches the preflight check (target resolution did not
already abort) and the `nmap -V` invocation fails, the remediation message
is printed and the process terminates with a non-zero exit status before
any profile is executed: zero scan invocations occur. -/
theorem C6_preflight_abort (w : World)
    (ht : resolveTarget w.argv w.stdinTarget ≠ none)
    (hn : w.nmapOk = false) :
    (main w).exitCode ≠ 0 ∧ (main w).nmapMsg = true ∧
    (main w).invocations = [] ∧ (main w).records = [] := by
  cases h : resolveTarget w.argv w.stdinTarget with
  | none => exact absurd h ht
  | some target => simp [main, h, hn]

/-- A run in which the external tool is missing. -/
def wNoNmap : World where
  argv := ["10.0.0.5"]
  stdinTarget := ""
  stdinMode := ""
  stdinPicks := ""
  nmapOk := false
  clock := fun _ => ⟨2025, 1, 1, 0, 0, 0⟩
  scanExit := fun _ => 0

/-- Witness for `C6_preflight_abort` at a concrete run. -/
theorem C6_preflight_abort_witness :
    (main wNoNmap).exitCode ≠ 0 ∧ (main wNoNmap).nmapMsg = true ∧
    (main wNoNmap).invocations = [] ∧ (main wNoNmap).records = [] :=
  C6_preflight_abort wNoNmap (by decide) rfl

/-- C7: a profile whose external invocation exits non-zero is reported with
its label and exit code; every selected profile still gets its own record,
and the set of attempted invocations does not depend on the exit codes at
all — a single profile's failure never aborts the batch. -/
theorem C7_failure_isolated (w : World) (k : Nat) (p : ScanProfile)
    (hp : (main w).invocations[k]? = some p) (hf : w.scanExit k ≠ 0) :
    (∃ r, (main w).records[k]? = some r ∧
      r.outcome = ScanOutcome.failed p.label (w.scanExit k)) ∧
    (main w).records.length = (main w).invocations.length ∧
    (∀ e : Nat → Int,
      (main { w with scanExit := e }).invocations = (main w).invocations) := by
  cases h : resolveTarget w.argv w.stdinTarget with
  | none => simp [main, h] at hp
  | some target =>
    by_cases hok : w.nmapOk = true
    · have hinv : (main w).invocations = scansToRun w :=
        main_invocations w target h hok
      have hrec : (main w).records =
          runAll target (outdirOf target) w.clock w.scanExit 0
            (scansToRun w) := by
        simp [main, h, hok]
      rw [hinv] at hp
      refine ⟨?_, ?_, fun e => main_scanExit_invocations w e⟩
      · rw [hrec, runAll_getElem?, hp]
        refine ⟨_, rfl, ?_⟩
        show (run_scan target p.label p.arguments (outdirOf target)
          (w.clock (0 + k)) (w.scanExit (0 + k))).outcome = _
        rw [Nat.zero_add]
        simp [run_scan, hf]
      · rw [hrec, hinv, runAll_length]
    · have hok' : w.nmapOk = false := by
        cases hb : w.nmapOk
        · rfl
        · exact absurd hb hok
      simp [main, h, hok'] at hp

/-- A run in which every scan invocation exits with status 2. -/
def wFail : World where
  argv := ["10.0.0.5"]
  stdinTarget := ""
  stdinMode := ""
  stdinPicks := ""
  nmapOk := true
  clock := fun _ => ⟨2025, 1, 1, 0, 0, 0⟩
  scanExit := fun _ => 2

/-- Witness for `C7_failure_isolated` at the second profile of a concrete
run. -/
theorem C7_failure_isolated_witness :
    (∃ r, (main wFail).records[1]? = some r ∧
      r.outcome = ScanOutcome.failed "tcp_full_all_ports" 2) ∧
    (main wFail).records.length = (main wFail).invocations.length ∧
    (∀ e : Nat → Int,
      (main { wFail with scanExit := e }).invocations =
        (main wFail).invocations) :=
  C7_failure_isolated wFail 1 ⟨"tcp_full_all_ports", "-sS -p- -T3 -Pn"⟩
    (by decide) (by decide)

/-- C8: every run of a profile composes the extensionless output base path
`<outdir>/<label>_<timestamp>` (timestamp at second resolution by
construction of `strftimeStamp`), embeds the argument string, the `-oA`
output-base flag and the target in the command line, and on exit status
zero reports exactly the three sibling paths `.nmap`, `.xml`, `.gnmap`. -/
theorem C8_output_naming (target label arguments outdir : String)
    (t : DateTime) (code : Int) :
    (run_scan target label arguments outdir t code).outbase =
      outdir ++ "/" ++ label ++ "_" ++ strftimeStamp t ∧
    (run_scan target label arguments outdir t code).cmd =
      "nmap " ++ arguments ++ " -oA " ++
        (run_scan target label arguments outdir t code).outbase ++
        " " ++ target ∧
    (code = 0 →
      (run_scan target label arguments outdir t code).outcome =
        ScanOutcome.ok
          [(run_scan target label arguments outdir t code).outbase ++ ".nmap",
           (run_scan target label arguments outdir t code).outbase ++ ".xml",
           (run_scan target label arguments outdir t code).outbase ++
             ".gnmap"]) := by
  refine ⟨rfl, rfl, fun hc => ?_⟩
  simp [run_scan, hc]

/-- Witness for `C8_output_naming` at a concrete invocation. -/
theorem C8_output_naming_witness :
    (run_scan "10.0.0.5" "service_version" "-sV -sC -T4 -Pn"
      "results/10.0.0.5" ⟨2025, 10, 12, 12, 0, 0⟩ 0).outcome =
      ScanOutcome.ok
        ["results/10.0.0.5/service_version_20251012_120000.nmap",
         "results/10.0.0.5/service_version_20251012_120000.xml",
         "results/10.0.0.5/service_version_20251012_120000.gnmap"] := by
  have h := (C8_output_naming "10.0.0.5" "service_version" "-sV -sC -T4 -Pn"
    "results/10.0.0.5" ⟨2025, 10, 12, 12, 0, 0⟩ 0).2.2 rfl
  exact h.trans (by decide)

/-- C9, counterexample: a target that is an absolute path makes `pathlib`
discard the `results` base entirely, so the output directory does not
resolve to `results/<target>` for every non-empty target. -/
theorem C9_counterexample :
    outdirOf "/x" = "/x" ∧ outdirOf "/x" ≠ "results/" ++ "/x" := by
  exact ⟨rfl, by decide⟩

/-- C9, amended: for every non-empty target containing no path separator
(the intended domain: IP addresses and hostnames), the output directory
resolves to `results/<target>`, and its creation with
`parents=True, exist_ok=True` never fails, creates the directory, is
idempotent on a second run, and leaves every existing directory in
place. -/
theorem C9_outdir_idempotent (fs : List (List String)) (target : String)
    (hne : target ≠ "") (hslash : ('/' : Char) ∉ target.data) :
    outdirOf target = "results/" ++ target ∧
    ∃ fs', mkdir fs ["results", target] true true = .ok fs' ∧
      ["results", target] ∈ fs' ∧
      mkdir fs' ["results", target] true true = .ok fs' ∧
      ∀ d ∈ fs, d ∈ fs' := by
  have hhead : ¬ target.data.head? = some '/' := by
    intro hcontra
    cases hd : target.data with
    | nil => rw [hd] at hcontra; cases hcontra
    | cons c cs =>
      rw [hd] at hcontra
      injection hcontra with hc
      subst hc
      exact hslash (hd ▸ List.mem_cons_self _ _)
  constructor
  · rw [outdirOf, if_neg hne, if_neg hhead]
  · by_cases hp : (["results", target] : List String) ∈ fs
    · refine ⟨fs, ?_, hp, ?_, fun d hd => hd⟩ <;> simp [mkdir, hp]
    · have hmk : mkdir fs ["results", target] true true =
          .ok (([["results"], ["results", target]] :
            List (List String)).foldl addDir fs) := by
        unfold mkdir
        rw [if_neg hp]
        rfl
      set fs' := ([["results"], ["results", target]] :
        List (List String)).foldl addDir fs with hfs'
      have hmem : (["results", target] : List String) ∈ fs' :=
        foldl_addDir_mem _ _ _ (by simp)
      exact ⟨fs', hmk, hmem, by simp [mkdir, hmem],
        fun d hd => foldl_addDir_preserve _ _ _ hd⟩

/-- Witness for `C9_outdir_idempotent` at a concrete target on an empty
filesystem. -/
theorem C9_outdir_idempotent_witness :
    outdirOf "10.0.0.5" = "results/" ++ "10.0.0.5" ∧
    ∃ fs', mkdir [] ["results", "10.0.0.5"] true true = .ok fs' ∧
      ["results", "10.0.0.5"] ∈ fs' ∧
      mkdir fs' ["results", "10.0.0.5"] true true = .ok fs' ∧
      ∀ d ∈ ([] : List (List String)), d ∈ fs' :=
  C9_outdir_idempotent [] "10.0.0.5" (by decide) (by decide)

/-- A run whose mode answer is the invalid token `"x"`. -/
def wModeX : World where
  argv := ["10.0.0.5"]
  stdinTarget := ""
  stdinMode := "x"
  stdinPicks := ""
  nmapOk := true
  clock := fun _ => ⟨2025, 1, 1, 0, 0, 0⟩
  scanExit := fun _ => 0

/-- Witness for `C10_mode_dispatch`: the invalid mode answer `"x"` selects
the full registry. -/
theorem C10_mode_dispatch_witness : scansToRun wModeX = SCANS :=
  (C10_mode_dispatch wModeX).2 (by decide)

end NmapAuto
